import Mathlib

/-! Verification of the diff-to-comment positioning and batching pipeline and the
API-key rotation state machine of the zen-ai-router-worker review scripts
(`gemini-pr-review.py` and `gemini-review.py`).

Definitions are shallow embeddings of the Python source.  Where the two
scripts differ, the `gemini-review.py` variant carries the suffix `_rev`
(or lives on `RevKMState`).
-/

/-- Character-list version of `List.isPrefixOf`. -/
def listStarts : List Char → List Char → Bool
  | [], _ => true
  | _ :: _, [] => false
  | a :: as, b :: bs => a == b && listStarts as bs

/-- Occurrence of `needle` as a contiguous sublist of `hay`. -/
def listOccurs (needle : List Char) : List Char → Bool
  | [] => needle.isEmpty
  | c :: rest => listStarts needle (c :: rest) || listOccurs needle rest

/-- Substring test: Python `needle in haystack` for strings. -/
def containsSub (needle hay : String) : Bool :=
  listOccurs needle.toList hay.toList

/-! The unified-diff model.

`unidiff.Hunk` iterates over its content lines; the pipeline only ever uses
`list(hunk)` (the content lines) and `len(list(hunk))`.  `unidiff.PatchedFile`
is a path plus its ordered hunks. -/

structure Hunk where
  lines : List String
deriving Repr, DecidableEq

instance : Inhabited Hunk := ⟨⟨[]⟩⟩

structure PatchedFile where
  path : String
  hunks : List Hunk
deriving Repr, DecidableEq

/-- Content-line count of hunk `h` of a file, as the Python `len(list(hunk))`. -/
def hunkContentCount (fp : PatchedFile) (h : Nat) : Int :=
  ((fp.hunks.getD h default).lines.length : Int)

/-- Embeds the loop `for i in range(n): position += 1; position += len(list(hunks[i]))`:
the sum of `1 + content-line count` over the first `n` hunks. -/
def sumBefore : List Hunk → Nat → Int
  | _, 0 => 0
  | [], _ + 1 => 0
  | hk :: rest, n + 1 => (1 + (hk.lines.length : Int)) + sumBefore rest n

/-- Result of `improved_calculate_github_position` in `gemini-pr-review.py`:
an integer position, the `{"invalidPosition": True, "file": path}` dictionary,
or `None`. -/
inductive PosResult where
  | position (p : Int)
  | invalidPosition (file : String)
  | failure
deriving Repr, DecidableEq

/-- Embeds `improved_calculate_github_position` of `gemini-pr-review.py`
(lines 828-881): out-of-bounds hunk index gives `None` (`failure`); a line
number outside `[1, content count]` gives the invalid-position dictionary;
otherwise the computed position. -/
def improved_calculate_github_position (fp : PatchedFile) (hunk_idx line_num : Int) : PosResult :=
  if 0 ≤ hunk_idx ∧ hunk_idx < (fp.hunks.length : Int) then
    let target := fp.hunks.getD hunk_idx.toNat default
    let num_lines : Int := (target.lines.length : Int)
    if 1 ≤ line_num ∧ line_num ≤ num_lines then
      PosResult.position (sumBefore fp.hunks hunk_idx.toNat + 1 + (line_num - 1))
    else
      PosResult.invalidPosition fp.path
  else
    PosResult.failure

/-- Embeds `improved_calculate_github_position` of `gemini-review.py`
(lines 884-933): identical except that a line number outside the hunk content
range returns `None` instead of the invalid-position dictionary. -/
def improved_calculate_github_position_rev (fp : PatchedFile) (hunk_idx line_num : Int) : Option Int :=
  if 0 ≤ hunk_idx ∧ hunk_idx < (fp.hunks.length : Int) then
    let target := fp.hunks.getD hunk_idx.toNat default
    let num_lines : Int := (target.lines.length : Int)
    if 1 ≤ line_num ∧ line_num ≤ num_lines then
      some (sumBefore fp.hunks hunk_idx.toNat + 1 + (line_num - 1))
    else
      none
  else
    none

/-- The position formula exactly as the spec states it: start at 0, add
`1 + content-line count` for every hunk preceding `h`, add 1 for the target
hunk header, then add `l - 1`. -/
def claimPosition (fp : PatchedFile) (h : Nat) (l : Int) : Int :=
  sumBefore fp.hunks h + 1 + (l - 1)

/-! Comment assembly (`process_batch_ai_reviews`).

The items reaching the assembler have already passed `process_structured_output`,
so their four fields are present and the index fields are integers. -/

structure GhReviewItem where
  hunkIndex : Int
  lineNumber : Int
  reviewComment : String
  confidence : String
deriving Repr, DecidableEq

/-- A comment record built for the GitHub API.  The Python dictionary only
carries an `invalidPosition` key in the degraded case; here the flag is
`false` when the key is absent. -/
structure GhComment where
  body : String
  path : String
  position : Int
  confidence_raw : String
  invalidPosition : Bool
deriving Repr, DecidableEq

/-- The normal comment body: `f"**My Confidence: {confidence}**\n\n{comment}"`. -/
def confidenceBody (confidence comment : String) : String :=
  "**My Confidence: " ++ confidence ++ "**\n\n" ++ comment

/-- The disclaimer prefixed to degraded file-level comments. -/
def invalidPosNote : String :=
  "**Note: I couldn\x27t precisely position this comment in the diff, but I think it\x27s important feedback:**\n\n"

/-- Embeds `process_batch_ai_reviews` of `gemini-pr-review.py` (lines
1110-1169): out-of-bounds hunk index or `None` position result skips the item;
the invalid-position dictionary yields a degraded comment at position 1 with
`invalidPosition=True`; a valid position yields a normal comment. -/
def process_batch_ai_reviews (fp : PatchedFile) (ai_reviews : List GhReviewItem) : List GhComment :=
  ai_reviews.filterMap fun r =>
    if (0 : Int) ≤ r.hunkIndex ∧ r.hunkIndex < (fp.hunks.length : Int) then
      match improved_calculate_github_position fp r.hunkIndex r.lineNumber with
      | PosResult.failure => none
      | PosResult.invalidPosition _ =>
          some { body := invalidPosNote ++ confidenceBody r.confidence r.reviewComment,
                 path := fp.path, position := 1,
                 confidence_raw := r.confidence, invalidPosition := true }
      | PosResult.position p =>
          some { body := confidenceBody r.confidence r.reviewComment,
                 path := fp.path, position := p,
                 confidence_raw := r.confidence, invalidPosition := false }
    else none

/-- Embeds `process_batch_ai_reviews` of `gemini-review.py` (lines 1166-1224):
its position calculator returns `Option Int`, and a `None` result skips the
item (the degraded branch there is dead code, guarded by an already-failed
`is None` test). -/
def process_batch_ai_reviews_rev (fp : PatchedFile) (ai_reviews : List GhReviewItem) : List GhComment :=
  ai_reviews.filterMap fun r =>
    if (0 : Int) ≤ r.hunkIndex ∧ r.hunkIndex < (fp.hunks.length : Int) then
      match improved_calculate_github_position_rev fp r.hunkIndex r.lineNumber with
      | none => none
      | some p =>
          some { body := confidenceBody r.confidence r.reviewComment,
                 path := fp.path, position := p,
                 confidence_raw := r.confidence, invalidPosition := false }
    else none

/-! Structured-output validation (`process_structured_output`).

A small universe of Python/JSON values, enough for the dictionaries the
Gemini backend returns. -/

inductive PyVal where
  | vstr (s : String)
  | vint (n : Int)
  | vlist (xs : List PyVal)
  | vdict (kvs : List (String × PyVal))
  | vnone

/-- Python `d[k]` / `k in d` over an association list (keys unique in any
value that a Python `dict` can denote). -/
def dictGet (k : String) : List (String × PyVal) → Option PyVal
  | [] => none
  | (k2, v) :: rest => if k2 = k then some v else dictGet k rest

/-- Python `d[k] = v`: replace in place, or append when the key is new. -/
def dictSet (k : String) (v : PyVal) : List (String × PyVal) → List (String × PyVal)
  | [] => [(k, v)]
  | (k2, v2) :: rest => if k2 = k then (k, v) :: rest else (k2, v2) :: dictSet k v rest

/-- Python `int(x)` on the values of this universe: an `int` stays itself, a
string is parsed (whitespace stripped), anything else raises
`TypeError`/`ValueError` (`none`). -/
def pyToInt : PyVal → Option Int
  | PyVal.vint n => some n
  | PyVal.vstr s => s.trim.toInt?
  | _ => none

/-- Python `x in ["High", "Medium", "Low"]`. -/
def confidenceOk : PyVal → Bool
  | PyVal.vstr s => s == "High" || s == "Medium" || s == "Low"
  | _ => false

/-- Validation of one review item, embedding the loop body of
`process_structured_output` (identical in both scripts, lines 786-825 /
842-881): non-dict items and items missing a required key are dropped;
`hunkIndex`/`lineNumber` are coerced to `int` (drop on failure, the coerced
value is written back); an out-of-enum `confidence` is replaced by `"Low"`;
the (mutated) item itself is kept. -/
def validateReviewItem (item : PyVal) : Option PyVal :=
  match item with
  | PyVal.vdict kvs =>
    if ((dictGet "hunkIndex" kvs).isSome && (dictGet "lineNumber" kvs).isSome
        && (dictGet "reviewComment" kvs).isSome && (dictGet "confidence" kvs).isSome) then
      match pyToInt ((dictGet "hunkIndex" kvs).getD PyVal.vnone),
            pyToInt ((dictGet "lineNumber" kvs).getD PyVal.vnone) with
      | some h, some l =>
        let kvs1 := dictSet "hunkIndex" (PyVal.vint h) kvs
        let kvs2 := dictSet "lineNumber" (PyVal.vint l) kvs1
        let kvs3 :=
          if confidenceOk ((dictGet "confidence" kvs2).getD PyVal.vnone) then kvs2
          else dictSet "confidence" (PyVal.vstr "Low") kvs2
        some (PyVal.vdict kvs3)
      | _, _ => none
    else none
  | _ => none

/-- Embeds `process_structured_output`: the payload must be a dict whose
`"reviews"` key holds a list, else the result is empty; each item is validated
independently and the valid ones are kept in order. -/
def process_structured_output (data : PyVal) : List PyVal :=
  match data with
  | PyVal.vdict kvs =>
    match dictGet "reviews" kvs with
    | some (PyVal.vlist items) => items.filterMap validateReviewItem
    | _ => []
  | _ => []

/-- The claim's characterization of a malformed review item: not a dict,
missing one of the four required fields, or `hunkIndex`/`lineNumber` not
coercible to an integer. -/
def itemMalformed : PyVal → Prop
  | PyVal.vdict kvs =>
      dictGet "hunkIndex" kvs = none ∨ dictGet "lineNumber" kvs = none
      ∨ dictGet "reviewComment" kvs = none ∨ dictGet "confidence" kvs = none
      ∨ pyToInt ((dictGet "hunkIndex" kvs).getD PyVal.vnone) = none
      ∨ pyToInt ((dictGet "lineNumber" kvs).getD PyVal.vnone) = none
  | _ => True

/-! Key rotation (`GeminiKeyManager`).

The `gemini-pr-review.py` manager holds a primary key and up to four
alternative keys (`GEMINI_ALT_1 .. GEMINI_ALT_4`, kept as an ordered
name-value list); the `gemini-review.py` manager holds a primary key and a
single optional `GEMINI_FALLBACK_API_KEY`. -/

structure KMState where
  primary_key : String
  alt_keys : List (String × String)
  current_key : String
  current_key_name : String
  rate_limited_keys : List String
  encountered_rate_limiting : Bool
  all_keys_rate_limited : Bool
  used_fallback_key : Bool
deriving Repr, DecidableEq

/-- The rotation order fixed at construction: primary first, then the
alternative keys in declaration order. -/
def rotationOrder (s : KMState) : List String :=
  "GEMINI_API_KEY" :: s.alt_keys.map Prod.fst

/-- Embeds `GeminiKeyManager.get_key_by_name` of `gemini-pr-review.py`. -/
def get_key_by_name (s : KMState) (name : String) : Option String :=
  if name = "GEMINI_API_KEY" then some s.primary_key
  else List.lookup name s.alt_keys

/-- Python `set.add`. -/
def addRateLimited (name : String) (l : List String) : List String :=
  if name ∈ l then l else l ++ [name]

/-- The state produced by the all-keys-exhausted branch of `rotate_key`:
reset to the primary key, clear the rate-limited set, flag exhaustion. -/
def exhaustKM (s : KMState) : KMState :=
  { s with current_key := s.primary_key, current_key_name := "GEMINI_API_KEY",
           all_keys_rate_limited := true, rate_limited_keys := [] }

/-- The `while tried_count < len(rotation_order)` search of
`GeminiKeyManager.rotate_key` (`gemini-pr-review.py` lines 266-309), with the
remaining tries as fuel: skip names already rate limited, mark missing/empty
keys rate limited, switch to the first usable key, and fall back to the
exhausted reset when the tries run out. -/
def rotateLoop (order : List String) : KMState → Nat → Nat → KMState × Bool
  | s, _, 0 => (exhaustKM s, false)
  | s, current_index, fuel + 1 =>
    let next_index := (current_index + 1) % order.length
    let next_key_name := order.getD next_index ""
    if next_key_name ∈ s.rate_limited_keys then
      rotateLoop order s next_index fuel
    else
      match get_key_by_name s next_key_name with
      | none =>
        rotateLoop order
          { s with rate_limited_keys := addRateLimited next_key_name s.rate_limited_keys }
          next_index fuel
      | some k =>
        if k = "" then
          rotateLoop order
            { s with rate_limited_keys := addRateLimited next_key_name s.rate_limited_keys }
            next_index fuel
        else
          ({ s with current_key := k, current_key_name := next_key_name,
                    used_fallback_key := true }, true)

/-- Embeds `GeminiKeyManager.rotate_key` of `gemini-pr-review.py` (lines
258-309): mark the current key rate limited, then search the rotation order
starting after the current key. -/
def KMState.rotate_key (s : KMState) : KMState × Bool :=
  let s1 := { s with rate_limited_keys := addRateLimited s.current_key_name s.rate_limited_keys }
  let order := rotationOrder s1
  rotateLoop order s1 (order.indexOf s1.current_key_name) order.length

/-- Python `str.lower()` for the ASCII patterns the classifier matches. -/
def pyLower (s : String) : String := String.mk (s.data.map Char.toLower)

/-- The case-insensitive rate-limit classifier shared by both scripts. -/
def isRateLimitMsg (e : String) : Bool :=
  let s := pyLower e
  containsSub "429" s || containsSub "quota" s || containsSub "rate limit" s
    || containsSub "resourceexhausted" s

/-- Embeds `GeminiKeyManager.is_rate_limit_error` of `gemini-pr-review.py`
(lines 311-330): classify, and set `encountered_rate_limiting` on a match. -/
def KMState.is_rate_limit_error (s : KMState) (e : String) : KMState × Bool :=
  if isRateLimitMsg e then
    ({ s with encountered_rate_limiting := true }, true)
  else (s, false)

/-- The `gemini-review.py` key manager: a primary key and one optional
fallback key. -/
structure RevKMState where
  primary_key : String
  fallback_key : Option String
  current_key : String
  current_key_name : String
  rate_limited_keys : List String
  encountered_rate_limiting : Bool
  all_keys_rate_limited : Bool
  used_fallback_key : Bool
deriving Repr, DecidableEq

/-- Embeds `GeminiKeyManager.rotate_key` of `gemini-review.py` (lines
259-282): mark the current key rate limited and set
`encountered_rate_limiting`; switch to the fallback when it is configured,
non-empty and not rate limited; otherwise reset to the primary key, clear the
set, set `all_keys_rate_limited` and — unlike the other script — reset
`used_fallback_key` to `False`. -/
def RevKMState.rotate_key (s : RevKMState) : RevKMState × Bool :=
  let s1 := { s with rate_limited_keys := addRateLimited s.current_key_name s.rate_limited_keys,
                     encountered_rate_limiting := true }
  let usable : Bool := match s1.fallback_key with
    | some fk => fk ≠ "" && "GEMINI_FALLBACK_API_KEY" ∉ s1.rate_limited_keys
    | none => false
  if usable then
    ({ s1 with current_key := s1.fallback_key.getD "",
               current_key_name := "GEMINI_FALLBACK_API_KEY",
               used_fallback_key := true }, true)
  else
    ({ s1 with current_key := s1.primary_key, current_key_name := "GEMINI_API_KEY",
               all_keys_rate_limited := true, rate_limited_keys := [],
               used_fallback_key := false }, false)

/-- Embeds `GeminiKeyManager.get_key_by_name` of `gemini-review.py` (lines
250-257): the primary key, the fallback key (possibly unset), or `None`. -/
def RevKMState.get_key_by_name (s : RevKMState) (name : String) : Option String :=
  if name = "GEMINI_API_KEY" then some s.primary_key
  else if name = "GEMINI_FALLBACK_API_KEY" then s.fallback_key
  else none

/-- Embeds `GeminiKeyManager.is_rate_limit_error` of `gemini-review.py`
(lines 284-303). -/
def RevKMState.is_rate_limit_error (s : RevKMState) (e : String) : RevKMState × Bool :=
  if isRateLimitMsg e then
    ({ s with encountered_rate_limiting := true }, true)
  else (s, false)

/-- The key-manager state as constructed by `GeminiKeyManager.__init__` of
`gemini-pr-review.py`. -/
def initKM (pk : String) (alts : List (String × String)) : KMState :=
  { primary_key := pk, alt_keys := alts, current_key := pk,
    current_key_name := "GEMINI_API_KEY", rate_limited_keys := [],
    encountered_rate_limiting := false, all_keys_rate_limited := false,
    used_fallback_key := false }

/-- The key-manager state as constructed by `GeminiKeyManager.__init__` of
`gemini-review.py`. -/
def initRevKM (pk : String) (fk : Option String) : RevKMState :=
  { primary_key := pk, fallback_key := fk, current_key := pk,
    current_key_name := "GEMINI_API_KEY", rate_limited_keys := [],
    encountered_rate_limiting := false, all_keys_rate_limited := false,
    used_fallback_key := false }

/-! Operation sequences over the key manager (for the flag-monotonicity
claim): the mutating entry points the scripts expose are `rotate_key` and
`is_rate_limit_error`. -/

inductive KMOp where
  | rotate
  | classify (e : String)

def KMState.applyOp (s : KMState) : KMOp → KMState
  | KMOp.rotate => s.rotate_key.1
  | KMOp.classify e => (s.is_rate_limit_error e).1

def KMState.runOps (s : KMState) : List KMOp → KMState
  | [] => s
  | op :: rest => (s.applyOp op).runOps rest

def RevKMState.applyOp (s : RevKMState) : KMOp → RevKMState
  | KMOp.rotate => s.rotate_key.1
  | KMOp.classify e => (s.is_rate_limit_error e).1

def RevKMState.runOps (s : RevKMState) : List KMOp → RevKMState
  | [] => s
  | op :: rest => (s.applyOp op).runOps rest

/-! The backend retry loop (`get_ai_response_with_structured_output`).

Each iteration of the Python `for attempt in range(1, max_retries + 1)` loop
makes one backend call; the call's outcome is drawn from a trace.  `continue`
in a Python `for` loop advances the loop variable, so every `continue` in the
source — including the one taken after a successful key rotation — moves to
the next `attempt` value. -/

inductive CallOutcome where
  | empty
  | success (data : PyVal)
  | jsonError
  | exc (msg : String)

/-- Embeds the retry loop of `get_ai_response_with_structured_output`
(`gemini-pr-review.py` lines 929-1043, structurally identical in
`gemini-review.py` lines 981-1099): an empty/blocked response or a JSON decode
error retries while attempts remain; a generic exception is classified, a
rate-limit match rotates the key and continues (advancing `attempt`), and
everything else retries while attempts remain; running past `max_retries`
returns the empty list. -/
def aiLoop (max_retries : Nat) : KMState → List CallOutcome → Nat → KMState × List PyVal
  | s, _, 0 => (s, [])
  | s, [], _ + 1 => (s, [])
  | s, o :: rest, rem + 1 =>
    match o with
    | CallOutcome.success d => (s, process_structured_output d)
    | CallOutcome.empty =>
      if rem > 0 then aiLoop max_retries s rest rem else (s, [])
    | CallOutcome.jsonError =>
      if rem > 0 then aiLoop max_retries s rest rem else (s, [])
    | CallOutcome.exc msg =>
      let sc := s.is_rate_limit_error msg
      if sc.2 then
        let sr := sc.1.rotate_key
        if sr.2 then aiLoop max_retries sr.1 rest rem
        else if rem > 0 then aiLoop max_retries sr.1 rest rem else (sr.1, [])
      else
        if rem > 0 then aiLoop max_retries sc.1 rest rem else (sc.1, [])

/-- The whole retry loop: `attempt` runs from 1 to `max_retries`, so
`max_retries` iterations remain at entry. -/
def get_ai_structured (s : KMState) (trace : List CallOutcome) (max_retries : Nat) :
    KMState × List PyVal :=
  aiLoop max_retries s trace max_retries

/-! Previous-review context (`get_previous_file_comments`). -/

structure StoredComment where
  file_path : String
  comment_text_md : String
deriving Repr, DecidableEq

/-- The persisted review record as the loaders return it: `none` models a
record without a `"review_comments"` key (or an empty/absent file, for which
`load_previous_review_data` returns `{}`). -/
structure ReviewData where
  review_comments : Option (List StoredComment)

/-- Embeds `get_previous_file_comments` of `gemini-pr-review.py` (lines
647-658): keep every stored comment whose `file_path` matches. -/
def get_previous_file_comments (rd : ReviewData) (file_path : String) : List StoredComment :=
  match rd.review_comments with
  | none => []
  | some cs => cs.filter fun c => c.file_path == file_path

/-- Embeds `get_previous_file_comments` of `gemini-review.py` (lines 684-696):
keep every stored comment whose `file_path` matches and whose text does not
contain `"[IGNORED]"`. -/
def get_previous_file_comments_rev (rd : ReviewData) (file_path : String) : List StoredComment :=
  match rd.review_comments with
  | none => []
  | some cs => cs.filter fun c => c.file_path == file_path && !containsSub "[IGNORED]" c.comment_text_md

/-! Shared lemmas about the position calculator. -/

theorem calc_in_bounds (fp : PatchedFile) (h l : Int)
    (h0 : 0 ≤ h) (h1 : h < (fp.hunks.length : Int))
    (l1 : 1 ≤ l) (l2 : l ≤ hunkContentCount fp h.toNat) :
    improved_calculate_github_position fp h l
      = PosResult.position (claimPosition fp h.toNat l) := by
  have hb : h.toNat < fp.hunks.length := by omega
  simp [hunkContentCount, List.getD_eq_getElem?_getD, List.getElem?_eq_getElem hb] at l2
  simp [improved_calculate_github_position, claimPosition, h0, h1, l1, l2]

theorem calc_in_bounds_rev (fp : PatchedFile) (h l : Int)
    (h0 : 0 ≤ h) (h1 : h < (fp.hunks.length : Int))
    (l1 : 1 ≤ l) (l2 : l ≤ hunkContentCount fp h.toNat) :
    improved_calculate_github_position_rev fp h l
      = some (claimPosition fp h.toNat l) := by
  have hb : h.toNat < fp.hunks.length := by omega
  simp [hunkContentCount, List.getD_eq_getElem?_getD, List.getElem?_eq_getElem hb] at l2
  simp [improved_calculate_github_position_rev, claimPosition, h0, h1, l1, l2]

/-- C1: for every file patch and every in-bounds pair `(hunkIndex, lineNumber)`,
both scripts' position calculators return exactly the spec's formula — 0, plus
`1 + content-line count` for every preceding hunk, plus 1 for the target hunk
header, plus `lineNumber - 1`; in particular, on a file with two hunks of 3 and
5 content lines, the item `{hunkIndex := 1, lineNumber := 2}` yields position
`1 + 3 + 1 + 1 = 6`. -/
theorem C1_position_formula :
    (∀ (fp : PatchedFile) (h l : Int), 0 ≤ h → h < (fp.hunks.length : Int) →
      1 ≤ l → l ≤ hunkContentCount fp h.toNat →
      improved_calculate_github_position fp h l
          = PosResult.position (claimPosition fp h.toNat l)
        ∧ improved_calculate_github_position_rev fp h l
          = some (claimPosition fp h.toNat l))
    ∧ improved_calculate_github_position
        ⟨"f.py", [⟨["a", "b", "c"]⟩, ⟨["d", "e", "f", "g", "h"]⟩]⟩ 1 2
        = PosResult.position 6 := by
  refine ⟨fun fp h l h0 h1 l1 l2 => ⟨?_, ?_⟩, by decide⟩
  · exact calc_in_bounds fp h l h0 h1 l1 l2
  · exact calc_in_bounds_rev fp h l h0 h1 l1 l2

/-- Witness for C1: the general formula applied to the concrete two-hunk file
at `hunkIndex = 1`, `lineNumber = 2`. -/
theorem C1_position_formula_witness :
    improved_calculate_github_position
        ⟨"f.py", [⟨["a", "b", "c"]⟩, ⟨["d", "e", "f", "g", "h"]⟩]⟩ 1 2
      = PosResult.position
          (claimPosition ⟨"f.py", [⟨["a", "b", "c"]⟩, ⟨["d", "e", "f", "g", "h"]⟩]⟩ 1 2)
    ∧ improved_calculate_github_position_rev
        ⟨"f.py", [⟨["a", "b", "c"]⟩, ⟨["d", "e", "f", "g", "h"]⟩]⟩ 1 2
      = some (claimPosition ⟨"f.py", [⟨["a", "b", "c"]⟩, ⟨["d", "e", "f", "g", "h"]⟩]⟩ 1 2) :=
  C1_position_formula.1 ⟨"f.py", [⟨["a", "b", "c"]⟩, ⟨["d", "e", "f", "g", "h"]⟩]⟩ 1 2
    (by decide) (by decide) (by decide) (by decide)

theorem sumBefore_succ (hunks : List Hunk) (n : Nat) (hn : n < hunks.length) :
    sumBefore hunks (n + 1)
      = sumBefore hunks n + 1 + ((hunks.getD n default).lines.length : Int) := by
  induction hunks generalizing n with
  | nil => simp at hn
  | cons hk rest ih =>
    cases n with
    | zero => simp [sumBefore]
    | succ m =>
      have hm : m < rest.length := by simpa using hn
      simp [sumBefore, ih m hm, List.getD_cons_succ]
      ring

theorem sumBefore_mono (hunks : List Hunk) {n m : Nat} (h : n ≤ m) :
    sumBefore hunks n ≤ sumBefore hunks m := by
  induction hunks generalizing n m with
  | nil =>
    cases n <;> cases m <;> simp [sumBefore]
  | cons hk rest ih =>
    cases n with
    | zero =>
      cases m with
      | zero => exact le_refl _
      | succ m' =>
        have h1 : (0 : Int) ≤ sumBefore rest m' := by
          calc (0 : Int) = sumBefore rest 0 := by simp [sumBefore]
          _ ≤ sumBefore rest m' := ih (Nat.zero_le m')
        simp [sumBefore]
        omega
    | succ n' =>
      cases m with
      | zero => omega
      | succ m' =>
        have := ih (Nat.le_of_succ_le_succ h)
        simp [sumBefore]
        omega

/-- C9: the position calculator is deterministic, strictly increasing in
`lineNumber` within a fixed hunk, and strictly increasing across hunks: every
valid position in a later hunk exceeds every valid position in an earlier
hunk of the same file. -/
theorem C9_calc_deterministic_monotone :
    (∀ (fp fp' : PatchedFile) (h h' l l' : Int), fp = fp' → h = h' → l = l' →
      improved_calculate_github_position fp h l
        = improved_calculate_github_position fp' h' l')
    ∧ (∀ (fp : PatchedFile) (h l l' : Int), 0 ≤ h → h < (fp.hunks.length : Int) →
        1 ≤ l → l < l' → l' ≤ hunkContentCount fp h.toNat →
        ∃ p p', improved_calculate_github_position fp h l = PosResult.position p
          ∧ improved_calculate_github_position fp h l' = PosResult.position p'
          ∧ p < p')
    ∧ (∀ (fp : PatchedFile) (h h' l l' : Int), 0 ≤ h → h < h' →
        h' < (fp.hunks.length : Int) →
        1 ≤ l → l ≤ hunkContentCount fp h.toNat →
        1 ≤ l' → l' ≤ hunkContentCount fp h'.toNat →
        ∃ p p', improved_calculate_github_position fp h l = PosResult.position p
          ∧ improved_calculate_github_position fp h' l' = PosResult.position p'
          ∧ p < p') := by
  refine ⟨fun fp fp' h h' l l' e1 e2 e3 => by rw [e1, e2, e3], ?_, ?_⟩
  · intro fp h l l' h0 h1 l1 llt l2
    refine ⟨claimPosition fp h.toNat l, claimPosition fp h.toNat l', ?_, ?_, ?_⟩
    · exact calc_in_bounds fp h l h0 h1 l1 (by omega)
    · exact calc_in_bounds fp h l' h0 h1 (by omega) l2
    · unfold claimPosition
      omega
  · intro fp h h' l l' h0 hlt h1 l1 l2 l1' l2'
    refine ⟨claimPosition fp h.toNat l, claimPosition fp h'.toNat l', ?_, ?_, ?_⟩
    · exact calc_in_bounds fp h l h0 (by omega) l1 l2
    · exact calc_in_bounds fp h' l' (by omega) h1 l1' l2'
    · have hab : h.toNat < h'.toNat := by omega
      have hblen : h'.toNat < fp.hunks.length := by omega
      have halen : h.toNat < fp.hunks.length := by omega
      have hsucc := sumBefore_succ fp.hunks h.toNat halen
      have hmono := sumBefore_mono fp.hunks (show h.toNat + 1 ≤ h'.toNat by omega)
      unfold hunkContentCount at l2
      unfold claimPosition
      omega

/-- Witness for C9: strict growth across the two hunks of the concrete
two-hunk file, from the last content line of hunk 0 to the first content line
of hunk 1. -/
theorem C9_calc_deterministic_monotone_witness :
    ∃ p p', improved_calculate_github_position
        ⟨"f.py", [⟨["a", "b", "c"]⟩, ⟨["d", "e", "f", "g", "h"]⟩]⟩ 0 3
        = PosResult.position p
      ∧ improved_calculate_github_position
        ⟨"f.py", [⟨["a", "b", "c"]⟩, ⟨["d", "e", "f", "g", "h"]⟩]⟩ 1 1
        = PosResult.position p'
      ∧ p < p' :=
  C9_calc_deterministic_monotone.2.2
    ⟨"f.py", [⟨["a", "b", "c"]⟩, ⟨["d", "e", "f", "g", "h"]⟩]⟩ 0 1 3 1
    (by decide) (by decide) (by decide) (by decide) (by decide) (by decide) (by decide)

/-- C8: for every file patch and every `hunkIndex` outside `[0, numHunks)`,
both calculators report an error (`None`) and never a position, and both
assemblers skip such an item instead of posting it. -/
theorem C8_out_of_bounds_hunk :
    ∀ (fp : PatchedFile) (r : GhReviewItem) (rest : List GhReviewItem),
      (r.hunkIndex < 0 ∨ (fp.hunks.length : Int) ≤ r.hunkIndex) →
      improved_calculate_github_position fp r.hunkIndex r.lineNumber = PosResult.failure
      ∧ improved_calculate_github_position_rev fp r.hunkIndex r.lineNumber = none
      ∧ process_batch_ai_reviews fp (r :: rest) = process_batch_ai_reviews fp rest
      ∧ process_batch_ai_reviews_rev fp (r :: rest) = process_batch_ai_reviews_rev fp rest := by
  intro fp r rest hoob
  have hnc : ¬(0 ≤ r.hunkIndex ∧ r.hunkIndex < (fp.hunks.length : Int)) := by omega
  refine ⟨?_, ?_, ?_, ?_⟩
  · simp [improved_calculate_github_position, hnc]
  · simp [improved_calculate_github_position_rev, hnc]
  · simp [process_batch_ai_reviews, List.filterMap_cons, hnc]
  · simp [process_batch_ai_reviews_rev, List.filterMap_cons, hnc]

/-- Witness for C8: a one-hunk file and an item aimed at hunk 5. -/
theorem C8_out_of_bounds_hunk_witness :
    improved_calculate_github_position ⟨"g.py", [⟨["x"]⟩]⟩ 5 1 = PosResult.failure
    ∧ improved_calculate_github_position_rev ⟨"g.py", [⟨["x"]⟩]⟩ 5 1 = none
    ∧ process_batch_ai_reviews ⟨"g.py", [⟨["x"]⟩]⟩ [⟨5, 1, "cmt", "High"⟩]
        = process_batch_ai_reviews ⟨"g.py", [⟨["x"]⟩]⟩ []
    ∧ process_batch_ai_reviews_rev ⟨"g.py", [⟨["x"]⟩]⟩ [⟨5, 1, "cmt", "High"⟩]
        = process_batch_ai_reviews_rev ⟨"g.py", [⟨["x"]⟩]⟩ [] :=
  C8_out_of_bounds_hunk ⟨"g.py", [⟨["x"]⟩]⟩ ⟨5, 1, "cmt", "High"⟩ [] (by decide)

/-- Counterexample to C2: in `gemini-review.py`, an item whose `hunkIndex` is
in bounds but whose `lineNumber` is beyond the hunk content is dropped by the
assembler (no degraded comment is emitted), because its position calculator
returns `None` for that case. -/
theorem C2_counterexample :
    improved_calculate_github_position_rev ⟨"g.py", [⟨["x"]⟩]⟩ 0 5 = none
    ∧ process_batch_ai_reviews_rev ⟨"g.py", [⟨["x"]⟩]⟩ [⟨0, 5, "cmt", "High"⟩] = [] := by
  constructor
  · decide
  · rfl

/-- C2 amended: for an in-bounds `hunkIndex` and an out-of-range `lineNumber`,
neither calculator returns an integer position; in `gemini-pr-review.py` the
calculator returns the invalid-position marker and the assembler emits a
degraded file-level comment at position 1, flagged `invalidPosition`, with the
disclaimer prefixed to the body; in `gemini-review.py` the calculator returns
`None` and the assembler drops the item. -/
theorem C2_degraded_comment_amended :
    ∀ (fp : PatchedFile) (r : GhReviewItem) (rest : List GhReviewItem),
      0 ≤ r.hunkIndex → r.hunkIndex < (fp.hunks.length : Int) →
      (r.lineNumber < 1 ∨ hunkContentCount fp r.hunkIndex.toNat < r.lineNumber) →
      improved_calculate_github_position fp r.hunkIndex r.lineNumber
          = PosResult.invalidPosition fp.path
      ∧ improved_calculate_github_position_rev fp r.hunkIndex r.lineNumber = none
      ∧ process_batch_ai_reviews fp (r :: rest)
          = { body := invalidPosNote ++ confidenceBody r.confidence r.reviewComment,
              path := fp.path, position := 1, confidence_raw := r.confidence,
              invalidPosition := true } :: process_batch_ai_reviews fp rest
      ∧ process_batch_ai_reviews_rev fp (r :: rest)
          = process_batch_ai_reviews_rev fp rest := by
  intro fp r rest h0 h1 hbad
  have hb : r.hunkIndex.toNat < fp.hunks.length := by omega
  simp [hunkContentCount, List.getD_eq_getElem?_getD, List.getElem?_eq_getElem hb] at hbad
  have hl : ¬(1 ≤ r.lineNumber
      ∧ r.lineNumber ≤ ((fp.hunks[r.hunkIndex.toNat]).lines.length : Int)) := by
    omega
  have hcalc : improved_calculate_github_position fp r.hunkIndex r.lineNumber
      = PosResult.invalidPosition fp.path := by
    simp [improved_calculate_github_position, h0, h1, hl]
  have hcalcr : improved_calculate_github_position_rev fp r.hunkIndex r.lineNumber = none := by
    simp [improved_calculate_github_position_rev, h0, h1, hl]
  refine ⟨hcalc, hcalcr, ?_, ?_⟩
  · simp [process_batch_ai_reviews, List.filterMap_cons, h0, h1, hcalc]
  · simp [process_batch_ai_reviews_rev, List.filterMap_cons, h0, h1, hcalcr]

/-- Witness for the amended C2: a one-hunk, one-line file with an item aimed
at line 5 of hunk 0. -/
theorem C2_degraded_comment_amended_witness :
    improved_calculate_github_position ⟨"g.py", [⟨["x"]⟩]⟩ 0 5
        = PosResult.invalidPosition "g.py"
    ∧ improved_calculate_github_position_rev ⟨"g.py", [⟨["x"]⟩]⟩ 0 5 = none
    ∧ process_batch_ai_reviews ⟨"g.py", [⟨["x"]⟩]⟩ [⟨0, 5, "cmt", "High"⟩]
        = [{ body := invalidPosNote ++ confidenceBody "High" "cmt",
             path := "g.py", position := 1, confidence_raw := "High",
             invalidPosition := true }]
    ∧ process_batch_ai_reviews_rev ⟨"g.py", [⟨["x"]⟩]⟩ [⟨0, 5, "cmt", "High"⟩] = [] :=
  C2_degraded_comment_amended ⟨"g.py", [⟨["x"]⟩]⟩ ⟨0, 5, "cmt", "High"⟩ []
    (by decide) (by decide) (by decide)

/-- C4: from the initial manager state with exactly one fallback key, the
first rotation succeeds onto the fallback with `used_fallback_key` set; the
second rotation reports exhaustion: active key reverts to the primary, the
rate-limited set is cleared, `all_keys_rate_limited` is set.  Stated for both
scripts' managers. -/
theorem C4_rotation_scenario :
    (∀ pk ak : String, ak ≠ "" →
      (initKM pk [("GEMINI_ALT_1", ak)]).rotate_key.2 = true
      ∧ (initKM pk [("GEMINI_ALT_1", ak)]).rotate_key.1.current_key_name = "GEMINI_ALT_1"
      ∧ (initKM pk [("GEMINI_ALT_1", ak)]).rotate_key.1.current_key = ak
      ∧ (initKM pk [("GEMINI_ALT_1", ak)]).rotate_key.1.used_fallback_key = true
      ∧ (initKM pk [("GEMINI_ALT_1", ak)]).rotate_key.1.rotate_key.2 = false
      ∧ (initKM pk [("GEMINI_ALT_1", ak)]).rotate_key.1.rotate_key.1.current_key_name
          = "GEMINI_API_KEY"
      ∧ (initKM pk [("GEMINI_ALT_1", ak)]).rotate_key.1.rotate_key.1.current_key = pk
      ∧ (initKM pk [("GEMINI_ALT_1", ak)]).rotate_key.1.rotate_key.1.rate_limited_keys = []
      ∧ (initKM pk [("GEMINI_ALT_1", ak)]).rotate_key.1.rotate_key.1.all_keys_rate_limited
          = true)
    ∧ (∀ pk fk : String, fk ≠ "" →
      (initRevKM pk (some fk)).rotate_key.2 = true
      ∧ (initRevKM pk (some fk)).rotate_key.1.current_key_name = "GEMINI_FALLBACK_API_KEY"
      ∧ (initRevKM pk (some fk)).rotate_key.1.current_key = fk
      ∧ (initRevKM pk (some fk)).rotate_key.1.used_fallback_key = true
      ∧ (initRevKM pk (some fk)).rotate_key.1.rotate_key.2 = false
      ∧ (initRevKM pk (some fk)).rotate_key.1.rotate_key.1.current_key_name = "GEMINI_API_KEY"
      ∧ (initRevKM pk (some fk)).rotate_key.1.rotate_key.1.current_key = pk
      ∧ (initRevKM pk (some fk)).rotate_key.1.rotate_key.1.rate_limited_keys = []
      ∧ (initRevKM pk (some fk)).rotate_key.1.rotate_key.1.all_keys_rate_limited = true) := by
  constructor
  · intro pk ak hak
    simp [initKM, KMState.rotate_key, rotationOrder, addRateLimited, rotateLoop,
      get_key_by_name, exhaustKM, hak]
  · intro pk fk hfk
    simp [initRevKM, RevKMState.rotate_key, addRateLimited, hfk]

/-- Witness for C4: the scenario at concrete key values. -/
theorem C4_rotation_scenario_witness :
    ((initKM "pk" [("GEMINI_ALT_1", "ak")]).rotate_key.2 = true
      ∧ (initKM "pk" [("GEMINI_ALT_1", "ak")]).rotate_key.1.current_key_name = "GEMINI_ALT_1"
      ∧ (initKM "pk" [("GEMINI_ALT_1", "ak")]).rotate_key.1.current_key = "ak"
      ∧ (initKM "pk" [("GEMINI_ALT_1", "ak")]).rotate_key.1.used_fallback_key = true
      ∧ (initKM "pk" [("GEMINI_ALT_1", "ak")]).rotate_key.1.rotate_key.2 = false
      ∧ (initKM "pk" [("GEMINI_ALT_1", "ak")]).rotate_key.1.rotate_key.1.current_key_name
          = "GEMINI_API_KEY"
      ∧ (initKM "pk" [("GEMINI_ALT_1", "ak")]).rotate_key.1.rotate_key.1.current_key = "pk"
      ∧ (initKM "pk" [("GEMINI_ALT_1", "ak")]).rotate_key.1.rotate_key.1.rate_limited_keys = []
      ∧ (initKM "pk" [("GEMINI_ALT_1", "ak")]).rotate_key.1.rotate_key.1.all_keys_rate_limited
          = true)
    ∧ ((initRevKM "pk" (some "fk")).rotate_key.2 = true
      ∧ (initRevKM "pk" (some "fk")).rotate_key.1.current_key_name = "GEMINI_FALLBACK_API_KEY"
      ∧ (initRevKM "pk" (some "fk")).rotate_key.1.current_key = "fk"
      ∧ (initRevKM "pk" (some "fk")).rotate_key.1.used_fallback_key = true
      ∧ (initRevKM "pk" (some "fk")).rotate_key.1.rotate_key.2 = false
      ∧ (initRevKM "pk" (some "fk")).rotate_key.1.rotate_key.1.current_key_name
          = "GEMINI_API_KEY"
      ∧ (initRevKM "pk" (some "fk")).rotate_key.1.rotate_key.1.current_key = "pk"
      ∧ (initRevKM "pk" (some "fk")).rotate_key.1.rotate_key.1.rate_limited_keys = []
      ∧ (initRevKM "pk" (some "fk")).rotate_key.1.rotate_key.1.all_keys_rate_limited = true) :=
  ⟨C4_rotation_scenario.1 "pk" "ak" (by decide), C4_rotation_scenario.2 "pk" "fk" (by decide)⟩

theorem get_key_by_name_config (s : KMState) (ck ckn : String) (rl : List String)
    (ub af : Bool) (name : String) :
    get_key_by_name { s with current_key := ck, current_key_name := ckn,
                             rate_limited_keys := rl, used_fallback_key := ub,
                             all_keys_rate_limited := af } name
      = get_key_by_name s name := by
  simp [get_key_by_name]

theorem rotateLoop_inv (order : List String) (fuel : Nat) :
    ∀ (s : KMState) (ci : Nat),
      ((rotateLoop order s ci fuel).1.current_key_name
          ∉ (rotateLoop order s ci fuel).1.rate_limited_keys)
      ∧ get_key_by_name (rotateLoop order s ci fuel).1
            (rotateLoop order s ci fuel).1.current_key_name
          = some (rotateLoop order s ci fuel).1.current_key
      ∧ ((rotateLoop order s ci fuel).2 = false →
            (rotateLoop order s ci fuel).1.current_key_name = "GEMINI_API_KEY"
            ∧ (rotateLoop order s ci fuel).1.current_key = s.primary_key
            ∧ (rotateLoop order s ci fuel).1.rate_limited_keys = []) := by
  induction fuel with
  | zero =>
    intro s ci
    simp [rotateLoop, exhaustKM, get_key_by_name]
  | succ n ih =>
    intro s ci
    simp only [rotateLoop]
    by_cases hmem : order.getD ((ci + 1) % order.length) "" ∈ s.rate_limited_keys
    · simp only [if_pos hmem]
      exact ih s ((ci + 1) % order.length)
    · simp only [if_neg hmem]
      cases hget : get_key_by_name s (order.getD ((ci + 1) % order.length) "") with
      | none =>
        simpa using
          ih { s with rate_limited_keys :=
                 addRateLimited (order.getD ((ci + 1) % order.length) "") s.rate_limited_keys }
             ((ci + 1) % order.length)
      | some k =>
        by_cases hk : k = ""
        · subst hk
          simp only [if_pos rfl]
          simpa using
            ih { s with rate_limited_keys :=
                   addRateLimited (order.getD ((ci + 1) % order.length) "") s.rate_limited_keys }
               ((ci + 1) % order.length)
        · simp only [if_neg hk]
          refine ⟨hmem, ?_, by intro hfalse; cases hfalse⟩
          show get_key_by_name
              { s with current_key := k,
                       current_key_name := order.getD ((ci + 1) % order.length) "",
                       used_fallback_key := true }
              (order.getD ((ci + 1) % order.length) "") = some k
          rw [show ∀ name, get_key_by_name
              { s with current_key := k,
                       current_key_name := order.getD ((ci + 1) % order.length) "",
                       used_fallback_key := true } name = get_key_by_name s name from
            fun name => by simp [get_key_by_name]]
          exact hget

/-- C10: after every call to `rotate_key`, whatever it returns, the current
key name is not in the rate-limited set and the current key value is the
configured key for the current key name; the exhaustion branch always restores
the primary key with an empty rate-limited set.  Stated for both scripts'
managers. -/
theorem C10_rotate_key_invariant :
    (∀ s : KMState,
      (s.rotate_key.1.current_key_name ∉ s.rotate_key.1.rate_limited_keys)
      ∧ get_key_by_name s.rotate_key.1 s.rotate_key.1.current_key_name
          = some s.rotate_key.1.current_key
      ∧ (s.rotate_key.2 = false →
          s.rotate_key.1.current_key_name = "GEMINI_API_KEY"
          ∧ s.rotate_key.1.current_key = s.primary_key
          ∧ s.rotate_key.1.rate_limited_keys = []))
    ∧ (∀ s : RevKMState,
      (s.rotate_key.1.current_key_name ∉ s.rotate_key.1.rate_limited_keys)
      ∧ s.rotate_key.1.get_key_by_name s.rotate_key.1.current_key_name
          = some s.rotate_key.1.current_key
      ∧ (s.rotate_key.2 = false →
          s.rotate_key.1.current_key_name = "GEMINI_API_KEY"
          ∧ s.rotate_key.1.current_key = s.primary_key
          ∧ s.rotate_key.1.rate_limited_keys = [])) := by
  constructor
  · intro s
    unfold KMState.rotate_key
    exact rotateLoop_inv _ _ _ _
  · intro s
    unfold RevKMState.rotate_key
    cases hfb : s.fallback_key with
    | none => simp [RevKMState.get_key_by_name]
    | some fk =>
      by_cases hk : fk = ""
      · subst hk
        simp [RevKMState.get_key_by_name]
      · by_cases hmem : "GEMINI_FALLBACK_API_KEY"
            ∈ addRateLimited s.current_key_name s.rate_limited_keys
        · simp [hmem, RevKMState.get_key_by_name]
        · simp [hk, hmem, RevKMState.get_key_by_name, hfb]

/-- Witness for C10: a manager with no alternative keys, whose rotation
reports exhaustion and restores the primary key. -/
theorem C10_rotate_key_invariant_witness :
    (initKM "pk" []).rotate_key.1.current_key_name = "GEMINI_API_KEY"
    ∧ (initKM "pk" []).rotate_key.1.current_key = "pk"
    ∧ (initKM "pk" []).rotate_key.1.rate_limited_keys = [] :=
  (C10_rotate_key_invariant.1 (initKM "pk" [])).2.2 (by decide)

theorem rotateLoop_flags (order : List String) (fuel : Nat) :
    ∀ (s : KMState) (ci : Nat),
      ((rotateLoop order s ci fuel).1.encountered_rate_limiting
          = s.encountered_rate_limiting)
      ∧ (s.all_keys_rate_limited = true →
          (rotateLoop order s ci fuel).1.all_keys_rate_limited = true)
      ∧ (s.used_fallback_key = true →
          (rotateLoop order s ci fuel).1.used_fallback_key = true) := by
  induction fuel with
  | zero =>
    intro s ci
    simp [rotateLoop, exhaustKM]
  | succ n ih =>
    intro s ci
    simp only [rotateLoop]
    by_cases hmem : order.getD ((ci + 1) % order.length) "" ∈ s.rate_limited_keys
    · simp only [if_pos hmem]
      exact ih s ((ci + 1) % order.length)
    · simp only [if_neg hmem]
      cases hget : get_key_by_name s (order.getD ((ci + 1) % order.length) "") with
      | none =>
        simpa using
          ih { s with rate_limited_keys :=
                 addRateLimited (order.getD ((ci + 1) % order.length) "") s.rate_limited_keys }
             ((ci + 1) % order.length)
      | some k =>
        by_cases hk : k = ""
        · subst hk
          simp only [if_pos rfl]
          simpa using
            ih { s with rate_limited_keys :=
                   addRateLimited (order.getD ((ci + 1) % order.length) "") s.rate_limited_keys }
               ((ci + 1) % order.length)
        · simp [if_neg hk]

theorem applyOp_flags (s : KMState) (op : KMOp) :
    (s.encountered_rate_limiting = true → (s.applyOp op).encountered_rate_limiting = true)
    ∧ (s.all_keys_rate_limited = true → (s.applyOp op).all_keys_rate_limited = true)
    ∧ (s.used_fallback_key = true → (s.applyOp op).used_fallback_key = true) := by
  cases op with
  | rotate =>
    have h := rotateLoop_flags (rotationOrder
      { s with rate_limited_keys := addRateLimited s.current_key_name s.rate_limited_keys })
      (rotationOrder
        { s with rate_limited_keys := addRateLimited s.current_key_name s.rate_limited_keys }).length
      { s with rate_limited_keys := addRateLimited s.current_key_name s.rate_limited_keys }
      ((rotationOrder
        { s with rate_limited_keys := addRateLimited s.current_key_name s.rate_limited_keys }).indexOf
        s.current_key_name)
    exact ⟨fun he => by simpa [KMState.applyOp, KMState.rotate_key, h.1] using he,
           fun ha => by simpa [KMState.applyOp, KMState.rotate_key] using h.2.1 ha,
           fun hu => by simpa [KMState.applyOp, KMState.rotate_key] using h.2.2 hu⟩
  | classify e =>
    by_cases hrl : isRateLimitMsg e
    · simp [KMState.applyOp, KMState.is_rate_limit_error, hrl]
    · simp [KMState.applyOp, KMState.is_rate_limit_error, hrl]

theorem revApplyOp_flags (s : RevKMState) (op : KMOp) :
    (s.encountered_rate_limiting = true → (s.applyOp op).encountered_rate_limiting = true)
    ∧ (s.all_keys_rate_limited = true → (s.applyOp op).all_keys_rate_limited = true) := by
  cases op with
  | rotate =>
    unfold RevKMState.applyOp RevKMState.rotate_key
    cases s.fallback_key with
    | none => simp
    | some fk =>
      by_cases hk : fk = ""
      · subst hk; simp
      · by_cases hmem : "GEMINI_FALLBACK_API_KEY"
            ∈ addRateLimited s.current_key_name s.rate_limited_keys
        · simp [hmem]
        · simp [hk, hmem]
  | classify e =>
    by_cases hrl : isRateLimitMsg e
    · simp [RevKMState.applyOp, RevKMState.is_rate_limit_error, hrl]
    · simp [RevKMState.applyOp, RevKMState.is_rate_limit_error, hrl]

/-- Counterexample to C6: in `gemini-review.py`, `used_fallback_key` is not
monotonic — a successful rotation sets it, and a second rotation (exhaustion)
resets it to `False`. -/
theorem C6_counterexample :
    ((initRevKM "pk" (some "fk")).runOps [KMOp.rotate]).used_fallback_key = true
    ∧ ((initRevKM "pk" (some "fk")).runOps
        [KMOp.rotate, KMOp.rotate]).used_fallback_key = false := by
  decide

/-- C6 amended: `encountered_rate_limiting` and `all_keys_rate_limited` are
monotonic under every sequence of `rotate_key` / `is_rate_limit_error`
operations in both scripts; `used_fallback_key` is monotonic in
`gemini-pr-review.py` only (the `gemini-review.py` exhaustion branch resets
it). -/
theorem C6_flags_monotone_amended :
    (∀ (s : KMState) (ops : List KMOp),
      (s.encountered_rate_limiting = true →
        (s.runOps ops).encountered_rate_limiting = true)
      ∧ (s.all_keys_rate_limited = true → (s.runOps ops).all_keys_rate_limited = true)
      ∧ (s.used_fallback_key = true → (s.runOps ops).used_fallback_key = true))
    ∧ (∀ (s : RevKMState) (ops : List KMOp),
      (s.encountered_rate_limiting = true →
        (s.runOps ops).encountered_rate_limiting = true)
      ∧ (s.all_keys_rate_limited = true →
        (s.runOps ops).all_keys_rate_limited = true)) := by
  constructor
  · intro s ops
    induction ops generalizing s with
    | nil => simp [KMState.runOps]
    | cons op rest ih =>
      have h := applyOp_flags s op
      have h2 := ih (s.applyOp op)
      exact ⟨fun he => h2.1 (h.1 he), fun ha => h2.2.1 (h.2.1 ha),
             fun hu => h2.2.2 (h.2.2 hu)⟩
  · intro s ops
    induction ops generalizing s with
    | nil => simp [RevKMState.runOps]
    | cons op rest ih =>
      have h := revApplyOp_flags s op
      have h2 := ih (s.applyOp op)
      exact ⟨fun he => h2.1 (h.1 he), fun ha => h2.2 (h.2 ha)⟩

/-- Witness for the amended C6: a state with all flags set keeps them set
across a rotation. -/
theorem C6_flags_monotone_amended_witness :
    ((⟨"pk", [], "pk", "GEMINI_API_KEY", [], true, true, true⟩ : KMState).runOps
        [KMOp.rotate]).encountered_rate_limiting = true
    ∧ ((⟨"pk", [], "pk", "GEMINI_API_KEY", [], true, true, true⟩ : KMState).runOps
        [KMOp.rotate]).all_keys_rate_limited = true
    ∧ ((⟨"pk", [], "pk", "GEMINI_API_KEY", [], true, true, true⟩ : KMState).runOps
        [KMOp.rotate]).used_fallback_key = true := by
  have h := C6_flags_monotone_amended.1
    (⟨"pk", [], "pk", "GEMINI_API_KEY", [], true, true, true⟩ : KMState) [KMOp.rotate]
  exact ⟨h.1 (by decide), h.2.1 (by decide), h.2.2 (by decide)⟩

/-- Counterexample to C5: a persisted comment marked `[ADDRESSED]` is still
returned by `get_previous_file_comments` for its file path, in both scripts —
neither filters on the `[ADDRESSED]` marker (`gemini-pr-review.py` filters
only by path, `gemini-review.py` additionally drops only `[IGNORED]`). -/
theorem C5_counterexample :
    get_previous_file_comments
        ⟨some [⟨"a.py", "Fix the loop. [ADDRESSED] **Resolution**: refactored."⟩]⟩ "a.py"
      = [⟨"a.py", "Fix the loop. [ADDRESSED] **Resolution**: refactored."⟩]
    ∧ containsSub "[ADDRESSED]"
        "Fix the loop. [ADDRESSED] **Resolution**: refactored." = true
    ∧ get_previous_file_comments_rev
        ⟨some [⟨"a.py", "Fix the loop. [ADDRESSED] **Resolution**: refactored."⟩]⟩ "a.py"
      = [⟨"a.py", "Fix the loop. [ADDRESSED] **Resolution**: refactored."⟩] := by
  refine ⟨by decide, by decide, by decide⟩

/-- C5 amended: `get_previous_file_comments` does not exclude `[ADDRESSED]`
comments.  In `gemini-pr-review.py` it returns exactly the stored comments
whose `file_path` matches; in `gemini-review.py` it returns exactly those that
match and do not contain `[IGNORED]`; an absent `review_comments` key yields
the empty list.  Comments marked `[ADDRESSED]` therefore reappear in the next
run's context (they are merely annotated as addressed when the prompt is
built). -/
theorem C5_previous_comments_amended :
    (∀ (cs : List StoredComment) (fp : String) (c : StoredComment),
      c ∈ get_previous_file_comments ⟨some cs⟩ fp ↔ c ∈ cs ∧ c.file_path = fp)
    ∧ (∀ (cs : List StoredComment) (fp : String) (c : StoredComment),
      c ∈ get_previous_file_comments_rev ⟨some cs⟩ fp
        ↔ c ∈ cs ∧ c.file_path = fp
          ∧ containsSub "[IGNORED]" c.comment_text_md = false)
    ∧ (∀ fp : String, get_previous_file_comments ⟨none⟩ fp = []
        ∧ get_previous_file_comments_rev ⟨none⟩ fp = []) := by
  refine ⟨?_, ?_, ?_⟩
  · intro cs fp c
    simp [get_previous_file_comments, List.mem_filter]
  · intro cs fp c
    simp [get_previous_file_comments_rev, List.mem_filter, and_assoc]
  · intro fp
    exact ⟨rfl, rfl⟩

theorem dictGet_dictSet (k : String) (v : PyVal) (kvs : List (String × PyVal)) :
    dictGet k (dictSet k v kvs) = some v := by
  induction kvs with
  | nil => simp [dictSet, dictGet]
  | cons kv rest ih =>
    by_cases hk : kv.1 = k
    · simp [dictSet, dictGet, hk]
    · simp [dictSet, dictGet, hk, ih]

theorem validate_none_iff (item : PyVal) :
    validateReviewItem item = none ↔ itemMalformed item := by
  cases item with
  | vdict kvs =>
    cases hH : dictGet "hunkIndex" kvs with
    | none => simp [validateReviewItem, itemMalformed, hH]
    | some vh =>
      cases hL : dictGet "lineNumber" kvs with
      | none => simp [validateReviewItem, itemMalformed, hH, hL]
      | some vl =>
        cases hR : dictGet "reviewComment" kvs with
        | none => simp [validateReviewItem, itemMalformed, hH, hL, hR]
        | some vr =>
          cases hC : dictGet "confidence" kvs with
          | none => simp [validateReviewItem, itemMalformed, hH, hL, hR, hC]
          | some vc =>
            cases hPH : pyToInt vh with
            | none => simp [validateReviewItem, itemMalformed, hH, hL, hR, hC, hPH]
            | some nh =>
              cases hPL : pyToInt vl with
              | none => simp [validateReviewItem, itemMalformed, hH, hL, hR, hC, hPH, hPL]
              | some nl => simp [validateReviewItem, itemMalformed, hH, hL, hR, hC, hPH, hPL]
  | vstr s => simp [validateReviewItem, itemMalformed]
  | vint n => simp [validateReviewItem, itemMalformed]
  | vlist xs => simp [validateReviewItem, itemMalformed]
  | vnone => simp [validateReviewItem, itemMalformed]

theorem dictGet_dictSet_ne (k k2 : String) (v : PyVal) (kvs : List (String × PyVal))
    (hne : k ≠ k2) : dictGet k (dictSet k2 v kvs) = dictGet k kvs := by
  induction kvs with
  | nil => simp [dictSet, dictGet, Ne.symm hne]
  | cons kv rest ih =>
    by_cases hk : kv.1 = k2
    · simp [dictSet, dictGet, hk, Ne.symm hne]
    · by_cases hk2 : kv.1 = k
      · simp [dictSet, dictGet, hk, hk2, hne]
      · simp [dictSet, dictGet, hk, hk2, ih]

/-- C7: `process_structured_output` returns exactly the well-formed items of
the `reviews` list, in order: the result is the list filtered through item
validation; an item is dropped exactly when it is not a dict, lacks a required
field, or its `hunkIndex`/`lineNumber` cannot be coerced to an integer; an
out-of-enum confidence keeps the item and is replaced by `"Low"`; a malformed
item never causes neighbouring items to be dropped; and `{"reviews": []}`
yields the empty sequence. -/
theorem C7_process_structured_output :
    process_structured_output (PyVal.vdict [("reviews", PyVal.vlist [])]) = []
    ∧ (∀ (kvs : List (String × PyVal)) (items : List PyVal),
        dictGet "reviews" kvs = some (PyVal.vlist items) →
        process_structured_output (PyVal.vdict kvs) = items.filterMap validateReviewItem)
    ∧ (∀ item : PyVal, validateReviewItem item = none ↔ itemMalformed item)
    ∧ (∀ (kvs : List (String × PyVal)) (vh vl vc : PyVal) (nh nl : Int),
        dictGet "hunkIndex" kvs = some vh → dictGet "lineNumber" kvs = some vl →
        (dictGet "reviewComment" kvs).isSome = true →
        dictGet "confidence" kvs = some vc →
        pyToInt vh = some nh → pyToInt vl = some nl → confidenceOk vc = false →
        ∃ kvs3, validateReviewItem (PyVal.vdict kvs) = some (PyVal.vdict kvs3)
          ∧ dictGet "confidence" kvs3 = some (PyVal.vstr "Low"))
    ∧ (∀ (kvs : List (String × PyVal)) (xs ys : List PyVal) (bad : PyVal),
        dictGet "reviews" kvs = some (PyVal.vlist (xs ++ bad :: ys)) →
        validateReviewItem bad = none →
        process_structured_output (PyVal.vdict kvs)
          = xs.filterMap validateReviewItem ++ ys.filterMap validateReviewItem) := by
  refine ⟨rfl, ?_, validate_none_iff, ?_, ?_⟩
  · intro kvs items h
    simp [process_structured_output, h]
  · intro kvs vh vl vc nh nl hH hL hR hC hPH hPL hconf
    have hconf2 : dictGet "confidence"
        (dictSet "lineNumber" (PyVal.vint nl) (dictSet "hunkIndex" (PyVal.vint nh) kvs))
        = some vc := by
      rw [dictGet_dictSet_ne _ _ _ _ (by decide), dictGet_dictSet_ne _ _ _ _ (by decide)]
      exact hC
    refine ⟨dictSet "confidence" (PyVal.vstr "Low")
        (dictSet "lineNumber" (PyVal.vint nl) (dictSet "hunkIndex" (PyVal.vint nh) kvs)),
      ?_, dictGet_dictSet _ _ _⟩
    rw [Option.isSome_iff_exists] at hR
    obtain ⟨vr, hR⟩ := hR
    simp [validateReviewItem, hH, hL, hR, hC, hPH, hPL, hconf2, hconf]
  · intro kvs xs ys bad h hbad
    simp [process_structured_output, h, List.filterMap_append, List.filterMap_cons, hbad]

/-- Witness for C7: a three-item payload whose middle item is not a dict is
processed into the two outer items, the malformed one dropped. -/
theorem C7_process_structured_output_witness :
    process_structured_output (PyVal.vdict [("reviews", PyVal.vlist
        [PyVal.vdict [("hunkIndex", PyVal.vint 0), ("lineNumber", PyVal.vint 1),
                      ("reviewComment", PyVal.vstr "c1"), ("confidence", PyVal.vstr "High")],
         PyVal.vstr "oops",
         PyVal.vdict [("hunkIndex", PyVal.vint 1), ("lineNumber", PyVal.vint 2),
                      ("reviewComment", PyVal.vstr "c2"), ("confidence", PyVal.vstr "Low")]])])
      = List.filterMap validateReviewItem
          [PyVal.vdict [("hunkIndex", PyVal.vint 0), ("lineNumber", PyVal.vint 1),
                        ("reviewComment", PyVal.vstr "c1"), ("confidence", PyVal.vstr "High")]]
        ++ List.filterMap validateReviewItem
          [PyVal.vdict [("hunkIndex", PyVal.vint 1), ("lineNumber", PyVal.vint 2),
                        ("reviewComment", PyVal.vstr "c2"), ("confidence", PyVal.vstr "Low")]] :=
  C7_process_structured_output.2.2.2.2
    [("reviews", PyVal.vlist
        [PyVal.vdict [("hunkIndex", PyVal.vint 0), ("lineNumber", PyVal.vint 1),
                      ("reviewComment", PyVal.vstr "c1"), ("confidence", PyVal.vstr "High")],
         PyVal.vstr "oops",
         PyVal.vdict [("hunkIndex", PyVal.vint 1), ("lineNumber", PyVal.vint 2),
                      ("reviewComment", PyVal.vstr "c2"), ("confidence", PyVal.vstr "Low")]])]
    [PyVal.vdict [("hunkIndex", PyVal.vint 0), ("lineNumber", PyVal.vint 1),
                  ("reviewComment", PyVal.vstr "c1"), ("confidence", PyVal.vstr "High")]]
    [PyVal.vdict [("hunkIndex", PyVal.vint 1), ("lineNumber", PyVal.vint 2),
                  ("reviewComment", PyVal.vstr "c2"), ("confidence", PyVal.vstr "Low")]]
    (PyVal.vstr "oops") rfl rfl

/-- C3 evidence: with the default budget of 3 attempts, three rate-limited
calls whose key rotations all succeed consume the whole budget — the loop
ends and returns `[]` without ever reaching the fourth, successful, backend
outcome.  The final state shows every rotation succeeded
(`used_fallback_key = true`, `all_keys_rate_limited = false`), yet the
attempt counter still advanced on each rotation, contrary to the source's own
comment that rotation does not increment the attempt counter.  The fourth
outcome would have produced a non-empty review list. -/
theorem C3_rotation_consumes_attempts :
    (get_ai_structured
        (initKM "pk" [("GEMINI_ALT_1", "a1"), ("GEMINI_ALT_2", "a2"), ("GEMINI_ALT_3", "a3")])
        [CallOutcome.exc "429 rate limit", CallOutcome.exc "429 rate limit",
         CallOutcome.exc "429 rate limit",
         CallOutcome.success (PyVal.vdict [("reviews", PyVal.vlist
           [PyVal.vdict [("hunkIndex", PyVal.vint 0), ("lineNumber", PyVal.vint 1),
                         ("reviewComment", PyVal.vstr "c1"),
                         ("confidence", PyVal.vstr "High")]])])] 3).2 = []
    ∧ (get_ai_structured
        (initKM "pk" [("GEMINI_ALT_1", "a1"), ("GEMINI_ALT_2", "a2"), ("GEMINI_ALT_3", "a3")])
        [CallOutcome.exc "429 rate limit", CallOutcome.exc "429 rate limit",
         CallOutcome.exc "429 rate limit",
         CallOutcome.success (PyVal.vdict [("reviews", PyVal.vlist
           [PyVal.vdict [("hunkIndex", PyVal.vint 0), ("lineNumber", PyVal.vint 1),
                         ("reviewComment", PyVal.vstr "c1"),
                         ("confidence", PyVal.vstr "High")]])])] 3).1.used_fallback_key = true
    ∧ (get_ai_structured
        (initKM "pk" [("GEMINI_ALT_1", "a1"), ("GEMINI_ALT_2", "a2"), ("GEMINI_ALT_3", "a3")])
        [CallOutcome.exc "429 rate limit", CallOutcome.exc "429 rate limit",
         CallOutcome.exc "429 rate limit",
         CallOutcome.success (PyVal.vdict [("reviews", PyVal.vlist
           [PyVal.vdict [("hunkIndex", PyVal.vint 0), ("lineNumber", PyVal.vint 1),
                         ("reviewComment", PyVal.vstr "c1"),
                         ("confidence", PyVal.vstr "High")]])])] 3).1.all_keys_rate_limited
        = false
    ∧ process_structured_output (PyVal.vdict [("reviews", PyVal.vlist
        [PyVal.vdict [("hunkIndex", PyVal.vint 0), ("lineNumber", PyVal.vint 1),
                      ("reviewComment", PyVal.vstr "c1"), ("confidence", PyVal.vstr "High")]])])
      = [PyVal.vdict [("hunkIndex", PyVal.vint 0), ("lineNumber", PyVal.vint 1),
                      ("reviewComment", PyVal.vstr "c1"), ("confidence", PyVal.vstr "High")]] := by
  refine ⟨rfl, rfl, rfl, rfl⟩
